import Mathlib

/-!
Verification of `redis-simple-cache` (`redis_cache/rediscache.py`).

The backing Redis store is modelled as an explicit state `DB` holding the
string keyspace (`kv`) and the set keyspace (`sets`); every Redis command the
code issues (`setex`, `get`, `delete`, `sadd`, `srem`, `scard`, `sismember`,
`spop`, `expire key 0`) is a pure function on `DB`.  TTL countdown is real
time and is outside the model: a live entry sits in `kv`, and the only expiry
the code itself triggers (`EXPIRE key 0`, which Redis executes as a delete)
is modelled as a delete.  Python exceptions raised by `get` are modelled as
an explicit result constructor.  The external serialisation libraries
(`json`, `pickle`, `base64`, `hashlib.md5`) are parameters of the
definitions that call them, so every theorem about them states its codec
assumptions explicitly.
-/

namespace RedisSimpleCache

/-- The backing Redis database: the string keyspace and the set keyspace.
A set with no members is the same as an absent set key, exactly as in
Redis, so `sets` maps a name directly to its (possibly empty) member
list. -/
structure DB where
  kv : String → Option String
  sets : String → List String

/-- The empty database. -/
def DB.empty : DB := ⟨fun _ => none, fun _ => []⟩

/-- Redis `GET k`. -/
def kvGet (db : DB) (k : String) : Option String :=
  db.kv k

/-- Redis `SETEX k ttl v` (the ttl argument is wall-clock time, not part of
the state model; the entry is simply live afterwards). -/
def kvSet (db : DB) (k v : String) : DB :=
  { db with kv := Function.update db.kv k (some v) }

/-- The member list of set `s`. -/
def members (db : DB) (s : String) : List String :=
  db.sets s

/-- Overwrite the member list of set `s`. -/
def setSet (db : DB) (s : String) (ms : List String) : DB :=
  { db with sets := Function.update db.sets s ms }

/-- Redis `SADD s m` (sets are duplicate-free). -/
def sadd (db : DB) (s m : String) : DB :=
  if m ∈ members db s then db else setSet db s (m :: members db s)

/-- Redis `SREM s m`. -/
def srem (db : DB) (s m : String) : DB :=
  setSet db s ((members db s).filter (fun x => x != m))

/-- Redis `SISMEMBER s m`. -/
def sismember (db : DB) (s m : String) : Bool :=
  (members db s).contains m

/-- Redis `SCARD s`. -/
def scard (db : DB) (s : String) : Nat :=
  (members db s).length

/-- Redis `SPOP s`: remove and return one arbitrary member (`None` when the
set is empty).  The model pops the head; the list order carries the
arbitrariness. -/
def spop (db : DB) (s : String) : Option String × DB :=
  match members db s with
  | [] => (none, db)
  | m :: rest => (some m, setSet db s rest)

/-- Redis `DEL k`: removes the key whatever its type. -/
def delKey (db : DB) (k : String) : DB :=
  { kv := Function.update db.kv k none
    sets := Function.update db.sets k [] }

/-- Redis `EXISTS k` (either keyspace). -/
def keyExists (db : DB) (k : String) : Bool :=
  (kvGet db k).isSome || !(db.sets k).isEmpty

/-- Redis `EXPIRE k 0`: an expire-immediately is executed as a delete; the
reply is `1` (true) exactly when the key existed. -/
def expireNow (db : DB) (k : String) : Bool × DB :=
  if keyExists db k then (true, delKey db k) else (false, db)

/-- Model of `to_unicode`: on text input the normalisation is the identity (the model
works with decoded text throughout). -/
def to_unicode (s : String) : String := s

/-- The state of a `SimpleCache` object after `__init__`: capacity `limit`,
default TTL `expire`, the namespace identifier `unique`, whether the
connection attempt succeeded (`connection = false` is Python's
`self.connection = None`, the degraded mode), and the `hashkeys` flag. -/
structure SimpleCache where
  limit : Nat
  expire : Nat
  unique : String
  connection : Bool
  hashkeys : Bool
deriving DecidableEq

/-- Model of `SimpleCache.__init__`: a total function — when the backing store is
unreachable the `RedisNoConnException` is caught and `connection` is set to
absent, so construction itself never fails. -/
def SimpleCache.init (limit expire : Nat) (hashkeys : Bool) (ns : String)
    (reachable : Bool) : SimpleCache :=
  { limit := limit, expire := expire, unique := ns,
    connection := reachable, hashkeys := hashkeys }

/-- Model of `make_key`: `"{unique}:{key}"`. -/
def SimpleCache.make_key (c : SimpleCache) (key : String) : String :=
  c.unique ++ ":" ++ key

/-- Model of `get_set_name`: `"{unique}-keys"`. -/
def SimpleCache.get_set_name (c : SimpleCache) : String :=
  c.unique ++ "-keys"

/-- Python's `"{0}:{1}".format(...)` interpolation of `spop`'s reply:
`None` prints as the text `None`. -/
def optKeyStr : Option String → String
  | some s => s
  | none => "None"

/-- The eviction loop of `store`: `while scard(set_name) >= limit:
spop(set_name); delete(make_key(popped))`.  Each successful pop shrinks the
set by one, so `scard + 1` fuel is enough whenever `limit ≥ 1`; the fuel
only makes termination explicit. -/
def evictLoop (c : SimpleCache) : Nat → DB → DB
  | 0, db => db
  | fuel + 1, db =>
    if c.limit ≤ scard db c.get_set_name then
      let pd := spop db c.get_set_name
      evictLoop c fuel (delKey pd.2 (c.make_key (optKeyStr pd.1)))
    else db

/-- Model of `store(key, value, expire)`: normalise, evict while at or over capacity,
then `setex` the entry and `sadd` the raw key in one pipeline. -/
def SimpleCache.store (c : SimpleCache) (key value : String)
    (expire? : Option Nat) (db : DB) : DB :=
  let key := to_unicode key
  let value := to_unicode value
  let set_name := c.get_set_name
  let db1 := evictLoop c (scard db set_name + 1) db
  let _e := expire?.getD c.expire
  let db2 := kvSet db1 (c.make_key key) value
  sadd db2 set_name key

/-- The outcome of `get(key)`: the stored text, a raised
`CacheMissException`, a raised `ExpiredKeyException`, or Python's implicit
`None` return (taken when the key is falsy, i.e. the empty string). -/
inductive GetResult where
  | value (v : String)
  | cacheMiss
  | expiredKey
  | noneValue
deriving DecidableEq

/-- Model of `get(key)`: look the entry up; on absence either a miss (key not in the
Key Set) or expiry (remove the stale key from the Key Set, then raise).  A
falsy key skips everything and returns `None`. -/
def SimpleCache.get (c : SimpleCache) (key : String) (db : DB) :
    GetResult × DB :=
  let key := to_unicode key
  if key ≠ "" then
    match kvGet db (c.make_key key) with
    | some v => (.value v, db)
    | none =>
      if sismember db c.get_set_name key then
        (.expiredKey, srem db c.get_set_name key)
      else
        (.cacheMiss, db)
  else (.noneValue, db)

/-- Model of `__contains__`: membership in the Key Set. -/
def SimpleCache.contains (c : SimpleCache) (key : String) (db : DB) : Bool :=
  sismember db c.get_set_name key

/-- Model of `__len__`: cardinality of the Key Set. -/
def SimpleCache.length (c : SimpleCache) (db : DB) : Nat :=
  scard db c.get_set_name

/-- Model of `keys()`: the members of the Key Set. -/
def SimpleCache.keys (c : SimpleCache) (db : DB) : List String :=
  members db c.get_set_name

/-- Model of `flush()`: one pipeline deleting every member's entry and then the Key
Set itself. -/
def SimpleCache.flush (c : SimpleCache) (db : DB) : DB :=
  let ks := c.keys db
  let db1 := ks.foldl (fun d k => delKey d (c.make_key k)) db
  delKey db1 c.get_set_name

/-- The loop of `expire_all_in_set`: issue `EXPIRE "{unique}:{member}" 0`
for each member, counting the true replies. -/
def expireList (c : SimpleCache) : List String → DB → Nat → DB × Nat
  | [], db, acc => (db, acc)
  | m :: ms, db, acc =>
    let r := expireNow db (c.make_key m)
    expireList c ms r.2 (if r.1 then acc + 1 else acc)

/-- Model of `expire_all_in_set()`: snapshot the members, expire each, return
`(self.__len__(), self.expired)` — the length is re-read after the loop. -/
def SimpleCache.expire_all_in_set (c : SimpleCache) (db : DB) :
    (Nat × Nat) × DB :=
  let ms := c.keys db
  let r := expireList c ms db 0
  ((scard r.1 c.get_set_name, r.2), r.1)

/-- Model of `store_json(key, value)`: `store(key, json.dumps(value))`.  `json.dumps`
is the external library encoder, passed in as `dumps`. -/
def SimpleCache.store_json (c : SimpleCache) (dumps : α → String)
    (key : String) (value : α) (db : DB) : DB :=
  c.store key (dumps value) none db

/-- Model of `store_pickle(key, value)`: `store(key, b64encode(pickle.dumps(value)))`
with the two external encoders passed in. -/
def SimpleCache.store_pickle (c : SimpleCache) (pdumps : α → String)
    (b64encode : String → String) (key : String) (value : α) (db : DB) : DB :=
  c.store key (b64encode (pdumps value)) none db

/-- Outcome of `get_json`/`get_pickle`: a decoded value, one of the two
cache exceptions propagating out of `get`, or a decoder exception
(`json.loads`/`pickle.loads`/`b64decode` failing, including the `TypeError`
on the `None` that `get` returns for a falsy key). -/
inductive DecodedResult (α : Type) where
  | value (v : α)
  | cacheMiss
  | expiredKey
  | decodeError
deriving DecidableEq

/-- Model of `get_json(key)`: `json.loads(self.get(key))`, the external decoder
passed in as `loads` (`none` = raises). -/
def SimpleCache.get_json (c : SimpleCache) (loads : String → Option α)
    (key : String) (db : DB) : DecodedResult α × DB :=
  match c.get key db with
  | (.value s, db') =>
    match loads s with
    | some v => (.value v, db')
    | none => (.decodeError, db')
  | (.cacheMiss, db') => (.cacheMiss, db')
  | (.expiredKey, db') => (.expiredKey, db')
  | (.noneValue, db') => (.decodeError, db')

/-- Model of `get_pickle(key)`: `pickle.loads(b64decode(self.get(key)))` with the two
external decoders passed in. -/
def SimpleCache.get_pickle (c : SimpleCache) (ploads : String → Option α)
    (b64decode : String → Option String) (key : String) (db : DB) :
    DecodedResult α × DB :=
  match c.get key db with
  | (.value s, db') =>
    match b64decode s with
    | some raw =>
      match ploads raw with
      | some v => (.value v, db')
      | none => (.decodeError, db')
    | none => (.decodeError, db')
  | (.cacheMiss, db') => (.cacheMiss, db')
  | (.expiredKey, db') => (.expiredKey, db')
  | (.noneValue, db') => (.decodeError, db')

/-- The key derivation shared by both decorators: serialise the argument
tuple (`sdumps`), then content-hash it (`md5hex`) when the cache has
`hashkeys` set. -/
def derive_key (hashkeys : Bool) (md5hex : String → String)
    (sdumps : α → String) (args : α) : String :=
  if hashkeys then md5hex (sdumps args) else sdumps args

/-- One call through `cache_it(...)(function)`, with a live-or-degraded
cache over the modelled store.  Returns the call's result, the store state
after the call, and how many times the wrapped `function` was invoked
during the call (0 or 1).  A `decodeError` from `get_pickle` is swallowed
by the decorator's bare `except:` (logged) and treated like a miss. -/
def cache_it_call (c : SimpleCache) (fname : String)
    (pdumps : ρ → String) (ploads : String → Option ρ)
    (b64encode : String → String) (b64decode : String → Option String)
    (md5hex : String → String) (adumps : α → String)
    (f : α → ρ) (args : α) (db : DB) : ρ × DB × Nat :=
  if c.connection = false then (f args, db, 1)
  else
    let key := derive_key c.hashkeys md5hex adumps args
    let cache_key := fname ++ ":" ++ key
    match c.get_pickle ploads b64decode cache_key db with
    | (.value v, db') => (v, db', 0)
    | (_, db') =>
      let result := f args
      (result, c.store_pickle pdumps b64encode cache_key result db', 1)

/-- One call through `cache_it_json(...)(function)`.  Unlike `cache_it`,
the decorator pre-checks `cache_key in cache` and only attempts the read
when the membership test succeeds. -/
def cache_it_json_call (c : SimpleCache) (fname : String)
    (jdumps : ρ → String) (jloads : String → Option ρ)
    (md5hex : String → String) (adumps : α → String)
    (f : α → ρ) (args : α) (db : DB) : ρ × DB × Nat :=
  if c.connection = false then (f args, db, 1)
  else
    let key := derive_key c.hashkeys md5hex adumps args
    let cache_key := fname ++ ":" ++ key
    if c.contains cache_key db then
      match c.get_json jloads cache_key db with
      | (.value v, db') => (v, db', 0)
      | (_, db') =>
        let result := f args
        (result, c.store_json jdumps cache_key result db', 1)
    else
      let result := f args
      (result, c.store_json jdumps cache_key result db, 1)

/-!
Exception-flow model of the decorators.  To settle what the wrappers do when
the backing store itself raises at call time, the store's behaviour during
one call is abstracted into oracles: the outcome of the cache read, whether
the membership pre-check raises, and whether the post-computation store step
raises.  The wrapper body is then translated statement by statement, with
`Except` carrying a Python exception escaping to the caller.
-/

/-- What the cache-read step (`get_pickle`/`get_json`) does during one
wrapped call: return a value, raise one of the two recoverable cache
exceptions, or raise some other backing-store error `e`. -/
inductive ReadAttempt (ρ : Type) where
  | hit (v : ρ)
  | cacheMiss
  | expiredKey
  | storeError (e : String)
deriving DecidableEq

/-- Model of `cache_it`'s wrapper under the exception oracles: the read sits in
`try/except (ExpiredKeyException, CacheMissException)/except:` — a hit
returns, the two cache exceptions pass silently, any other error is logged
by the bare `except:`.  The subsequent `result = function(*args)` and
`cache.store_pickle(...)` lines are outside any `try`, so an error raised by
the store step (`storeErr`) escapes to the caller. -/
def cache_it_call_exc (connection : Bool) (read : ReadAttempt ρ)
    (storeErr : Option String) (f : α → ρ) (args : α) :
    Except String (ρ × Nat) :=
  if connection = false then .ok (f args, 1)
  else
    match read with
    | .hit v => .ok (v, 0)
    | .cacheMiss | .expiredKey | .storeError _ =>
      match storeErr with
      | some e => .error e
      | none => .ok (f args, 1)

/-- Model of `cache_it_json`'s wrapper under the exception oracles: the membership
pre-check `if cache_key in cache:` runs outside any `try`, so an error
raised there (`memberCheck = .error e`) escapes; only the read inside the
`if` is guarded; the trailing store step is again unguarded. -/
def cache_it_json_call_exc (connection : Bool)
    (memberCheck : Except String Bool) (read : ReadAttempt ρ)
    (storeErr : Option String) (f : α → ρ) (args : α) :
    Except String (ρ × Nat) :=
  if connection = false then .ok (f args, 1)
  else
    match memberCheck with
    | .error e => .error e
    | .ok true =>
      match read with
      | .hit v => .ok (v, 0)
      | .cacheMiss | .expiredKey | .storeError _ =>
        match storeErr with
        | some e => .error e
        | none => .ok (f args, 1)
    | .ok false =>
      match storeErr with
      | some e => .error e
      | none => .ok (f args, 1)

/-! ### Basic lemmas about the store primitives -/

@[simp] theorem kvGet_kvSet_self (db : DB) (k v : String) :
    kvGet (kvSet db k v) k = some v := by
  simp [kvGet, kvSet]

theorem kvGet_kvSet_ne (db : DB) (k v q : String) (h : q ≠ k) :
    kvGet (kvSet db k v) q = kvGet db q := by
  simp [kvGet, kvSet, Function.update_noteq h]

@[simp] theorem members_kvSet (db : DB) (k v s : String) :
    members (kvSet db k v) s = members db s := by
  simp [members, kvSet]

@[simp] theorem kvGet_setSet (db : DB) (s : String) (ms : List String)
    (q : String) : kvGet (setSet db s ms) q = kvGet db q := by
  simp [kvGet, setSet]

@[simp] theorem members_setSet_self (db : DB) (s : String)
    (ms : List String) : members (setSet db s ms) s = ms := by
  simp [members, setSet]

theorem members_setSet_ne (db : DB) (s : String) (ms : List String)
    (t : String) (h : t ≠ s) : members (setSet db s ms) t = members db t := by
  simp [members, setSet, Function.update_noteq h]

@[simp] theorem kvGet_delKey_self (db : DB) (k : String) :
    kvGet (delKey db k) k = none := by
  simp [kvGet, delKey]

theorem kvGet_delKey_ne (db : DB) (k q : String) (h : q ≠ k) :
    kvGet (delKey db k) q = kvGet db q := by
  simp [kvGet, delKey, Function.update_noteq h]

theorem members_delKey_ne (db : DB) (k t : String) (h : t ≠ k) :
    members (delKey db k) t = members db t := by
  simp [members, delKey, Function.update_noteq h]

theorem kvGet_delKey_none (db : DB) (k q : String)
    (h : kvGet db q = none) : kvGet (delKey db k) q = none := by
  by_cases hqk : q = k
  · subst hqk; simp
  · rwa [kvGet_delKey_ne db k q hqk]

@[simp] theorem kvGet_sadd (db : DB) (s m q : String) :
    kvGet (sadd db s m) q = kvGet db q := by
  unfold sadd
  split <;> simp

@[simp] theorem kvGet_srem (db : DB) (s m q : String) :
    kvGet (srem db s m) q = kvGet db q := by
  simp [srem]

theorem members_sadd_ne (db : DB) (s m t : String) (h : t ≠ s) :
    members (sadd db s m) t = members db t := by
  unfold sadd
  split
  · rfl
  · exact members_setSet_ne db s _ t h

theorem members_srem_ne (db : DB) (s m t : String) (h : t ≠ s) :
    members (srem db s m) t = members db t := by
  simp [srem, members_setSet_ne db s _ t h]

@[simp] theorem members_srem_self (db : DB) (s m : String) :
    members (srem db s m) s = (members db s).filter (fun x => x != m) := by
  simp [srem]

theorem scard_sadd_le (db : DB) (s m : String) :
    scard (sadd db s m) s ≤ scard db s + 1 := by
  unfold sadd scard
  split
  · omega
  · simp

theorem kvGet_spop (db : DB) (s q : String) :
    kvGet (spop db s).2 q = kvGet db q := by
  unfold spop
  split <;> simp

theorem members_spop_ne (db : DB) (s t : String) (h : t ≠ s) :
    members (spop db s).2 t = members db t := by
  unfold spop
  split
  · rfl
  · exact members_setSet_ne db s _ t h

theorem contains_filter_ne (k : String) (l : List String) :
    ((l.filter (fun x => x != k)).contains k) = false := by
  induction l with
  | nil => rfl
  | cons a l ih =>
    by_cases h : a = k
    · subst h; simp [ih]
    · simp only [List.filter_cons]
      have hb : (a != k) = true := by simp [h]
      rw [hb]
      simp only [if_true, List.contains_cons, ih, Bool.or_false]
      simp [Ne.symm h]

/-! ### Key-shape lemmas: namespacing via string concatenation -/

theorem string_append_cancel_left {s t u : String} (h : s ++ t = s ++ u) :
    t = u := by
  apply String.ext
  have h2 := congrArg String.data h
  simpa [String.data_append] using h2

theorem string_append_cancel_right {s t u : String} (h : t ++ s = u ++ s) :
    t = u := by
  apply String.ext
  have h2 := congrArg String.data h
  simpa [String.data_append] using h2

/-- Inside one cache, an entry key `"{unique}:{x}"` can never collide with
the Key Set's name `"{unique}-keys"`. -/
theorem make_key_ne_get_set_name (c : SimpleCache) (x : String) :
    c.make_key x ≠ c.get_set_name := by
  intro h
  have h2 := congrArg String.data h
  simp only [SimpleCache.make_key, SimpleCache.get_set_name,
    String.data_append, List.append_assoc] at h2
  have h3 := List.append_cancel_left h2
  simp at h3

/-- The function `make_key` is injective for a fixed cache. -/
theorem make_key_inj (c : SimpleCache) {x y : String}
    (h : c.make_key x = c.make_key y) : x = y :=
  string_append_cancel_left h

/-- Splitting at the first `':'`: when neither prefix contains `':'`, the
decomposition `l ++ ':' :: r` is unique. -/
theorem colon_split {l₁ l₂ r₁ r₂ : List Char} (h₁ : ':' ∉ l₁)
    (h₂ : ':' ∉ l₂) (h : l₁ ++ ':' :: r₁ = l₂ ++ ':' :: r₂) :
    l₁ = l₂ ∧ r₁ = r₂ := by
  induction l₁ generalizing l₂ with
  | nil =>
    cases l₂ with
    | nil => simpa using h
    | cons b bs =>
      simp only [List.nil_append, List.cons_append, List.cons.injEq] at h
      exact absurd (h.1 ▸ List.mem_cons_self b bs) (h.1 ▸ h₂)
  | cons a as ih =>
    cases l₂ with
    | nil =>
      simp only [List.nil_append, List.cons_append, List.cons.injEq] at h
      exact absurd (h.1 ▸ List.mem_cons_self a as)
        (fun hm => h₁ (h.1 ▸ hm))
    | cons b bs =>
      simp only [List.cons_append, List.cons.injEq] at h
      have has : ':' ∉ as := fun hm => h₁ (List.mem_cons_of_mem a hm)
      have hbs : ':' ∉ bs := fun hm => h₂ (List.mem_cons_of_mem b hm)
      obtain ⟨he, hr⟩ := ih has hbs h.2
      exact ⟨by rw [h.1, he], hr⟩

theorem data_make_key (c : SimpleCache) (x : String) :
    (c.make_key x).data = c.unique.data ++ ':' :: x.data := by
  simp [SimpleCache.make_key, String.data_append]

/-- Across two caches with `':'`-free namespaces, entry keys collide only
when namespace and raw key both agree. -/
theorem make_key_cross_ne (c₁ c₂ : SimpleCache)
    (h₁ : ':' ∉ c₁.unique.data) (h₂ : ':' ∉ c₂.unique.data)
    (hne : c₁.unique ≠ c₂.unique) (x y : String) :
    c₁.make_key x ≠ c₂.make_key y := by
  intro h
  have h2 := congrArg String.data h
  rw [data_make_key, data_make_key] at h2
  exact hne (String.ext (colon_split h₁ h₂ h2).1)

/-- Key Set names of distinct namespaces are distinct. -/
theorem get_set_name_cross_ne (c₁ c₂ : SimpleCache)
    (hne : c₁.unique ≠ c₂.unique) :
    c₁.get_set_name ≠ c₂.get_set_name := by
  intro h
  exact hne (string_append_cancel_right h)

/-- An entry key of any cache never collides with the Key Set name of a
cache whose namespace is `':'`-free. -/
theorem make_key_ne_get_set_name_cross (c₁ c₂ : SimpleCache)
    (h₂ : ':' ∉ c₂.unique.data) (x : String) :
    c₁.make_key x ≠ c₂.get_set_name := by
  intro h
  have h2 := congrArg String.data h
  rw [data_make_key] at h2
  simp only [SimpleCache.get_set_name, String.data_append] at h2
  have hmem : ':' ∈ c₂.unique.data ++ "-keys".data := by
    rw [← h2]; simp
  rw [List.mem_append] at hmem
  rcases hmem with hm | hm
  · exact h₂ hm
  · simp at hm

/-! ### The eviction loop -/

/-- Any fuel beyond the initial cardinality is enough: when the capacity is
positive, the loop leaves the Key Set strictly below capacity. -/
theorem scard_evictLoop_lt (c : SimpleCache) (fuel : Nat) (db : DB)
    (hl : 1 ≤ c.limit) (hf : scard db c.get_set_name < fuel + c.limit) :
    scard (evictLoop c fuel db) c.get_set_name < c.limit := by
  induction fuel generalizing db with
  | zero => simpa [evictLoop] using hf
  | succ n ih =>
    rw [evictLoop]
    by_cases hle : c.limit ≤ scard db c.get_set_name
    · rw [if_pos hle]
      have hpos : 0 < scard db c.get_set_name := lt_of_lt_of_le hl hle
      cases hm : members db c.get_set_name with
      | nil => rw [scard, hm] at hpos; simp at hpos
      | cons m rest =>
        have hspop : spop db c.get_set_name =
            (some m, setSet db c.get_set_name rest) := by
          rw [spop, hm]
        simp only [hspop]
        apply ih
        have hcard : scard (delKey (setSet db c.get_set_name rest)
            (c.make_key (optKeyStr (some m)))) c.get_set_name = rest.length := by
          rw [scard, members_delKey_ne _ _ _
            (Ne.symm (make_key_ne_get_set_name c _)), members_setSet_self]
        rw [hcard]
        rw [scard, hm] at hf
        simp only [List.length_cons] at hf
        omega
    · rw [if_neg hle]
      omega

/-- The eviction loop only deletes entries: an absent entry stays absent. -/
theorem kvGet_evictLoop_none (c : SimpleCache) (fuel : Nat) (db : DB)
    (q : String) (h : kvGet db q = none) :
    kvGet (evictLoop c fuel db) q = none := by
  induction fuel generalizing db with
  | zero => simpa [evictLoop] using h
  | succ n ih =>
    rw [evictLoop]
    by_cases hle : c.limit ≤ scard db c.get_set_name
    · rw [if_pos hle]
      apply ih
      apply kvGet_delKey_none
      rw [kvGet_spop]
      exact h
    · rw [if_neg hle]; exact h

/-- Entries outside the cache's own namespace survive the eviction loop. -/
theorem kvGet_evictLoop_other (c : SimpleCache) (fuel : Nat) (db : DB)
    (q : String) (hq : ∀ x, c.make_key x ≠ q) :
    kvGet (evictLoop c fuel db) q = kvGet db q := by
  induction fuel generalizing db with
  | zero => simp [evictLoop]
  | succ n ih =>
    rw [evictLoop]
    by_cases hle : c.limit ≤ scard db c.get_set_name
    · rw [if_pos hle, ih, kvGet_delKey_ne _ _ _ (Ne.symm (hq _)), kvGet_spop]
    · rw [if_neg hle]

/-- Sets other than the cache's own Key Set survive the eviction loop. -/
theorem members_evictLoop_other (c : SimpleCache) (fuel : Nat) (db : DB)
    (t : String) (ht : ∀ x, c.make_key x ≠ t) (hts : c.get_set_name ≠ t) :
    members (evictLoop c fuel db) t = members db t := by
  induction fuel generalizing db with
  | zero => simp [evictLoop]
  | succ n ih =>
    rw [evictLoop]
    by_cases hle : c.limit ≤ scard db c.get_set_name
    · rw [if_pos hle, ih, members_delKey_ne _ _ _ (Ne.symm (ht _)),
        members_spop_ne _ _ _ (Ne.symm hts)]
    · rw [if_neg hle]

/-! ### Store lemmas -/

/-- After `store(key, value)` the entry is present with exactly `value`. -/
theorem kvGet_store_self (c : SimpleCache) (key value : String)
    (expire? : Option Nat) (db : DB) :
    kvGet (c.store key value expire? db) (c.make_key key) = some value := by
  simp [SimpleCache.store, to_unicode]

/-- A `store` leaves the Key Set at or below capacity (C1's bound). -/
theorem scard_store_le (c : SimpleCache) (key value : String)
    (expire? : Option Nat) (db : DB) (hl : 1 ≤ c.limit) :
    scard (c.store key value expire? db) c.get_set_name ≤ c.limit := by
  unfold SimpleCache.store
  simp only [to_unicode]
  have h1 := scard_sadd_le
    (kvSet (evictLoop c (scard db c.get_set_name + 1) db)
      (c.make_key key) value) c.get_set_name key
  have h2 : scard (kvSet (evictLoop c (scard db c.get_set_name + 1) db)
      (c.make_key key) value) c.get_set_name =
      scard (evictLoop c (scard db c.get_set_name + 1) db)
        c.get_set_name := by
    simp [scard]
  have h3 := scard_evictLoop_lt c (scard db c.get_set_name + 1) db hl
    (by omega)
  omega

/-- A `store` never creates entries under other keys: an absent entry at a
different key stays absent. -/
theorem kvGet_store_none (c : SimpleCache) (key value : String)
    (expire? : Option Nat) (db : DB) (q : String)
    (hq : q ≠ c.make_key key) (h : kvGet db q = none) :
    kvGet (c.store key value expire? db) q = none := by
  unfold SimpleCache.store
  simp only [to_unicode, kvGet_sadd]
  rw [kvGet_kvSet_ne _ _ _ _ hq]
  exact kvGet_evictLoop_none _ _ _ _ h

/-- A `store` through cache `c₁` cannot touch entries of a cache `c₂` with
a different `':'`-free namespace. -/
theorem kvGet_store_cross (c₁ c₂ : SimpleCache)
    (h₁ : ':' ∉ c₁.unique.data) (h₂ : ':' ∉ c₂.unique.data)
    (hne : c₁.unique ≠ c₂.unique) (key value : String)
    (expire? : Option Nat) (db : DB) (q : String) :
    kvGet (c₁.store key value expire? db) (c₂.make_key q) =
      kvGet db (c₂.make_key q) := by
  unfold SimpleCache.store
  simp only [to_unicode, kvGet_sadd]
  rw [kvGet_kvSet_ne _ _ _ _ (Ne.symm (make_key_cross_ne c₁ c₂ h₁ h₂ hne _ _))]
  exact kvGet_evictLoop_other c₁ _ db _ (fun x => make_key_cross_ne c₁ c₂ h₁ h₂ hne x q)

/-- A `store` through cache `c₁` cannot touch the Key Set of a cache `c₂`
with a different `':'`-free namespace. -/
theorem members_store_cross (c₁ c₂ : SimpleCache)
    (_h₁ : ':' ∉ c₁.unique.data) (h₂ : ':' ∉ c₂.unique.data)
    (hne : c₁.unique ≠ c₂.unique) (key value : String)
    (expire? : Option Nat) (db : DB) :
    members (c₁.store key value expire? db) c₂.get_set_name =
      members db c₂.get_set_name := by
  unfold SimpleCache.store
  simp only [to_unicode]
  rw [members_sadd_ne _ _ _ _ (Ne.symm (get_set_name_cross_ne c₁ c₂ hne)),
    members_kvSet]
  exact members_evictLoop_other c₁ _ db _
    (fun x => make_key_ne_get_set_name_cross c₁ c₂ h₂ x)
    (get_set_name_cross_ne c₁ c₂ hne)

/-! ### `get` case lemmas -/

theorem get_of_kvGet_some (c : SimpleCache) (k v : String) (db : DB)
    (hk : k ≠ "") (h : kvGet db (c.make_key k) = some v) :
    c.get k db = (.value v, db) := by
  simp [SimpleCache.get, to_unicode, hk, h]

theorem get_of_miss (c : SimpleCache) (k : String) (db : DB) (hk : k ≠ "")
    (h : kvGet db (c.make_key k) = none)
    (hs : sismember db c.get_set_name k = false) :
    c.get k db = (.cacheMiss, db) := by
  simp [SimpleCache.get, to_unicode, hk, h, hs]

theorem get_of_expired (c : SimpleCache) (k : String) (db : DB) (hk : k ≠ "")
    (h : kvGet db (c.make_key k) = none)
    (hs : sismember db c.get_set_name k = true) :
    c.get k db = (.expiredKey, srem db c.get_set_name k) := by
  simp [SimpleCache.get, to_unicode, hk, h, hs]

theorem get_of_empty_key (c : SimpleCache) (db : DB) :
    c.get "" db = (.noneValue, db) := by
  simp [SimpleCache.get, to_unicode]

/-! ### `flush` lemmas -/

@[simp] theorem members_delKey_self (db : DB) (k : String) :
    members (delKey db k) k = [] := by
  simp [members, delKey]

theorem kvGet_foldl_del_none (c : SimpleCache) (ks : List String) (db : DB)
    (q : String) (h : kvGet db q = none) :
    kvGet (ks.foldl (fun d x => delKey d (c.make_key x)) db) q = none := by
  induction ks generalizing db with
  | nil => simpa using h
  | cons a ks ih =>
    simp only [List.foldl_cons]
    exact ih _ (kvGet_delKey_none _ _ _ h)

theorem kvGet_foldl_del_mem (c : SimpleCache) (ks : List String) (db : DB)
    (k : String) (hk : k ∈ ks) :
    kvGet (ks.foldl (fun d x => delKey d (c.make_key x)) db)
      (c.make_key k) = none := by
  induction ks generalizing db with
  | nil => cases hk
  | cons a ks ih =>
    simp only [List.foldl_cons]
    by_cases hak : a = k
    · subst hak
      exact kvGet_foldl_del_none c ks _ _ (kvGet_delKey_self _ _)
    · rcases List.mem_cons.mp hk with h | h
      · exact absurd h.symm hak
      · exact ih _ h

/-- After `flush`, the entry of any key that was either listed in the Key
Set or already absent is absent. -/
theorem kvGet_flush_none (c : SimpleCache) (db : DB) (k : String)
    (hmem : k ∈ members db c.get_set_name ∨
      kvGet db (c.make_key k) = none) :
    kvGet (c.flush db) (c.make_key k) = none := by
  unfold SimpleCache.flush SimpleCache.keys
  apply kvGet_delKey_none
  rcases hmem with h | h
  · exact kvGet_foldl_del_mem c _ db k h
  · exact kvGet_foldl_del_none c _ db _ h

/-- After `flush`, the Key Set is gone. -/
theorem members_flush (c : SimpleCache) (db : DB) :
    members (c.flush db) c.get_set_name = [] := by
  unfold SimpleCache.flush SimpleCache.keys
  simp

/-! ### `expire_all_in_set` lemmas -/

theorem members_expireList (c : SimpleCache) (ms : List String) (db : DB)
    (acc : Nat) :
    members (expireList c ms db acc).1 c.get_set_name =
      members db c.get_set_name := by
  induction ms generalizing db acc with
  | nil => rfl
  | cons m ms ih =>
    rw [expireList]
    unfold expireNow
    by_cases h : keyExists db (c.make_key m)
    · simp only [h, if_true]
      rw [ih]
      exact members_delKey_ne _ _ _ (Ne.symm (make_key_ne_get_set_name c m))
    · rw [if_neg h]
      exact ih _ _

theorem keyExists_delKey_ne (db : DB) (k q : String) (h : q ≠ k) :
    keyExists (delKey db k) q = keyExists db q := by
  simp [keyExists, kvGet, delKey, Function.update_noteq h]

theorem expireList_count (c : SimpleCache) (ms : List String) (db : DB)
    (acc : Nat) (hnd : ms.Nodup) :
    (expireList c ms db acc).2 =
      acc + ms.countP (fun m => keyExists db (c.make_key m)) := by
  induction ms generalizing db acc with
  | nil => simp [expireList]
  | cons m ms ih =>
    rw [expireList]
    unfold expireNow
    have hnd' : ms.Nodup := (List.nodup_cons.mp hnd).2
    have hm : m ∉ ms := (List.nodup_cons.mp hnd).1
    by_cases h : keyExists db (c.make_key m)
    · simp only [h, if_true]
      rw [ih _ _ hnd']
      have hcong : ms.countP
          (fun x => keyExists (delKey db (c.make_key m)) (c.make_key x)) =
          ms.countP (fun x => keyExists db (c.make_key x)) := by
        apply List.countP_congr
        intro x hx
        have hxm : x ≠ m := fun he => hm (he ▸ hx)
        rw [keyExists_delKey_ne _ _ _
          (fun he => hxm (make_key_inj c he))]
      rw [hcong, List.countP_cons]
      simp only [h, if_true]
      omega
    · rw [if_neg h, ih _ _ hnd', List.countP_cons]
      simp [h]

/-! ### Concrete sample objects used to instantiate the theorems -/

/-- A live cache in namespace `"app"`. -/
def cacheA : SimpleCache :=
  { limit := 10, expire := 3600, unique := "app", connection := true,
    hashkeys := false }

/-- A live cache in namespace `"web"` (`':'`-free, distinct from `"app"`). -/
def cacheB : SimpleCache :=
  { limit := 10, expire := 3600, unique := "web", connection := true,
    hashkeys := false }

/-- A live cache whose namespace `"app:b"` extends `"app"` past the `':'`
separator. -/
def cacheC : SimpleCache :=
  { limit := 10, expire := 3600, unique := "app:b", connection := true,
    hashkeys := false }

/-! ### C1 — capacity bound -/

/-- C1: with a live connection and positive capacity, any completed
`store(key, value, ttl)` leaves the Key Set cardinality at most `limit`:
the eviction loop pops and deletes members while the cardinality is
`≥ limit` before the single insertion. -/
theorem store_capacity_bound (c : SimpleCache) (key value : String)
    (expire? : Option Nat) (db : DB) (_hconn : c.connection = true)
    (hl : 1 ≤ c.limit) :
    c.length (c.store key value expire? db) ≤ c.limit := by
  unfold SimpleCache.length
  exact scard_store_le c key value expire? db hl

/-- C1 witness: storing into a cache of capacity 10 keeps the Key Set at
or below 10 members. -/
theorem store_capacity_bound_witness :
    cacheA.connection = true ∧ 1 ≤ cacheA.limit ∧
    cacheA.length (cacheA.store "k" "v" none DB.empty) ≤ cacheA.limit :=
  ⟨rfl, by decide,
    store_capacity_bound cacheA "k" "v" none DB.empty rfl (by decide)⟩

/-! ### C3 — the outcomes of `get` -/

/-- C3 counterexample: at the empty-string key, the entry is absent and the
key is not in the Key Set, yet `get` raises nothing and returns `None` —
a fourth outcome the claim's trichotomy does not admit. -/
theorem get_trichotomy_cex :
    kvGet DB.empty (cacheA.make_key "") = none ∧
    sismember DB.empty cacheA.get_set_name "" = false ∧
    (cacheA.get "" DB.empty).1 = GetResult.noneValue ∧
    GetResult.noneValue ≠ GetResult.cacheMiss := by
  exact ⟨rfl, rfl, rfl, by decide⟩

/-- C3 amended: for every *non-empty* key, `get` has exactly the three
claimed outcomes — entry present returns the stored text; entry absent and
key not in the Key Set raises `CacheMissException`; entry absent but key in
the Key Set removes the key from the Key Set (so a subsequent membership
test is false) and raises the distinct `ExpiredKeyException`. -/
theorem get_trichotomy (c : SimpleCache) (db : DB) (k : String)
    (hk : k ≠ "") :
    (∀ v, kvGet db (c.make_key k) = some v → c.get k db = (.value v, db)) ∧
    (kvGet db (c.make_key k) = none →
      sismember db c.get_set_name k = false →
      c.get k db = (.cacheMiss, db)) ∧
    (kvGet db (c.make_key k) = none →
      sismember db c.get_set_name k = true →
      (c.get k db).1 = .expiredKey ∧
      c.contains k (c.get k db).2 = false) := by
  refine ⟨fun v hv => get_of_kvGet_some c k v db hk hv,
    fun hn hs => get_of_miss c k db hk hn hs, fun hn hs => ?_⟩
  rw [get_of_expired c k db hk hn hs]
  refine ⟨rfl, ?_⟩
  unfold SimpleCache.contains sismember
  rw [members_srem_self]
  exact contains_filter_ne k _

/-- C3 witness: the three outcomes at concrete states — a stored entry, a
never-stored key, and a key listed in the Key Set without an entry. -/
theorem get_trichotomy_witness :
    cacheA.get "p" (kvSet DB.empty (cacheA.make_key "p") "42") =
      (.value "42", kvSet DB.empty (cacheA.make_key "p") "42") ∧
    cacheA.get "q" DB.empty = (.cacheMiss, DB.empty) ∧
    ((cacheA.get "p" (sadd DB.empty cacheA.get_set_name "p")).1 =
        GetResult.expiredKey ∧
      cacheA.contains "p"
        (cacheA.get "p" (sadd DB.empty cacheA.get_set_name "p")).2 =
        false) :=
  ⟨(get_trichotomy cacheA (kvSet DB.empty (cacheA.make_key "p") "42") "p"
      (by decide)).1 "42" (by decide),
   (get_trichotomy cacheA DB.empty "q" (by decide)).2.1 rfl rfl,
   (get_trichotomy cacheA (sadd DB.empty cacheA.get_set_name "p") "p"
      (by decide)).2.2 rfl (by decide)⟩

/-! ### C8 — `flush` -/

/-- C8 counterexample: the empty-string key counts as previously stored
(`store` lists it in the Key Set), yet after `flush` a `get` on it returns
`None` instead of raising `CacheMissException`. -/
theorem flush_then_miss_cex :
    sismember (cacheA.store "" "v" none DB.empty) cacheA.get_set_name "" =
      true ∧
    (cacheA.get ""
      (cacheA.flush (cacheA.store "" "v" none DB.empty))).1 =
      GetResult.noneValue ∧
    GetResult.noneValue ≠ GetResult.cacheMiss := by
  exact ⟨by decide, by decide, by decide⟩

/-- C8 amended: `flush()` deletes the Cache Entry of every key in the Key
Set and then the Key Set itself; afterwards `get` on any previously-stored
*non-empty* key (one whose entry, if present, is listed in the Key Set)
raises `CacheMissException` — not `ExpiredKeyException` — and the cache's
length is 0. -/
theorem flush_then_miss (c : SimpleCache) (db : DB) (k : String)
    (hk : k ≠ "")
    (hmem : k ∈ members db c.get_set_name ∨
      kvGet db (c.make_key k) = none) :
    c.get k (c.flush db) = (.cacheMiss, c.flush db) ∧
    c.length (c.flush db) = 0 := by
  constructor
  · apply get_of_miss c k _ hk (kvGet_flush_none c db k hmem)
    unfold sismember
    rw [members_flush]
    rfl
  · unfold SimpleCache.length scard
    rw [members_flush]
    rfl

/-- C8 witness: flushing a cache that holds one stored key. -/
theorem flush_then_miss_witness :
    cacheA.get "a" (cacheA.flush (cacheA.store "a" "1" none DB.empty)) =
      (.cacheMiss, cacheA.flush (cacheA.store "a" "1" none DB.empty)) ∧
    cacheA.length (cacheA.flush (cacheA.store "a" "1" none DB.empty)) = 0 :=
  flush_then_miss cacheA (cacheA.store "a" "1" none DB.empty) "a"
    (by decide) (Or.inl (by decide))

/-! ### C9 — `expire_all_in_set` -/

/-- C9: `expire_all_in_set()` issues an expire-immediately command for
every key in the Key Set snapshot and returns (total keys observed, count
successfully expired) — the second component counts exactly the members
whose backing-store key existed. -/
theorem expire_all_in_set_spec (c : SimpleCache) (db : DB)
    (hnd : (members db c.get_set_name).Nodup) :
    (c.expire_all_in_set db).1 =
      ((members db c.get_set_name).length,
       (members db c.get_set_name).countP
         (fun m => keyExists db (c.make_key m))) := by
  unfold SimpleCache.expire_all_in_set SimpleCache.keys
  simp only
  refine Prod.ext ?_ ?_
  · simp only [scard]
    rw [members_expireList]
  · simp only
    rw [expireList_count c _ db 0 hnd]
    omega

/-- A state whose Key Set lists `"a"` and `"b"` while only `"a"` still has
a live entry. -/
def dbC9 : DB :=
  kvSet (sadd (sadd DB.empty cacheA.get_set_name "b") cacheA.get_set_name "a")
    (cacheA.make_key "a") "1"

/-- C9 witness: two known keys, one of which still has a live entry —
the reply is (2 observed, 1 expired). -/
theorem expire_all_in_set_witness :
    (members dbC9 cacheA.get_set_name).Nodup ∧
    (cacheA.expire_all_in_set dbC9).1 =
      ((members dbC9 cacheA.get_set_name).length,
       (members dbC9 cacheA.get_set_name).countP
         (fun m => keyExists dbC9 (cacheA.make_key m))) ∧
    (cacheA.expire_all_in_set dbC9).1 = (2, 1) :=
  ⟨by decide, expire_all_in_set_spec cacheA dbC9 (by decide), by decide⟩

/-! ### C10 — the falsy key -/

/-- C10: `get` on the empty-string key returns `None` in every cache
state — no lookup, no `CacheMissException`, no `ExpiredKeyException` —
while any non-empty never-stored key raises `CacheMissException`. -/
theorem get_empty_key_none (c : SimpleCache) (db : DB) :
    c.get "" db = (.noneValue, db) ∧
    (∀ k, k ≠ "" → kvGet db (c.make_key k) = none →
      sismember db c.get_set_name k = false →
      (c.get k db).1 = .cacheMiss) := by
  refine ⟨get_of_empty_key c db, fun k hk hn hs => ?_⟩
  rw [get_of_miss c k db hk hn hs]

/-- C10 witness: on the empty database the empty key returns `None` while
`"x"` misses. -/
theorem get_empty_key_none_witness :
    cacheA.get "" DB.empty = (.noneValue, DB.empty) ∧
    (cacheA.get "x" DB.empty).1 = GetResult.cacheMiss :=
  ⟨(get_empty_key_none cacheA DB.empty).1,
   (get_empty_key_none cacheA DB.empty).2 "x" (by decide) rfl rfl⟩

/-! ### C2 — store/get round-trips -/

/-- C2 amended: with a live connection, positive capacity and a non-empty
key,
`store` immediately followed by `get` returns the stored value under each
encoding: the raw text round-trip is lossless outright, and the
JSON and pickle+base64 round-trips are lossless whenever the external
codec pair itself is (stated as an explicit inverse hypothesis, since
`json`/`pickle`/`base64` are library collaborators, not repository code). -/
theorem store_get_roundtrip (c : SimpleCache) (k : String) (db : DB)
    (_hconn : c.connection = true) (hk : k ≠ "") (hl : 1 ≤ c.limit) :
    (∀ v expire?, (c.get k (c.store k v expire? db)).1 = .value v) ∧
    (∀ (α : Type) (jdumps : α → String) (jloads : String → Option α)
       (v : α), jloads (jdumps v) = some v →
      (c.get_json jloads k (c.store_json jdumps k v db)).1 = .value v) ∧
    (∀ (α : Type) (pdumps : α → String) (ploads : String → Option α)
       (b64encode : String → String) (b64decode : String → Option String)
       (v : α),
      b64decode (b64encode (pdumps v)) = some (pdumps v) →
      ploads (pdumps v) = some v →
      (c.get_pickle ploads b64decode k
        (c.store_pickle pdumps b64encode k v db)).1 = .value v) := by
  have _ := hl
  refine ⟨fun v e? => ?_, fun α jdumps jloads v hj => ?_, ?_⟩
  · rw [get_of_kvGet_some c k v _ hk (kvGet_store_self c k v e? db)]
  · unfold SimpleCache.get_json SimpleCache.store_json
    rw [get_of_kvGet_some c k (jdumps v) _ hk
      (kvGet_store_self c k (jdumps v) none db)]
    simp [hj]
  · intro α pdumps ploads b64encode b64decode v hb hp
    unfold SimpleCache.get_pickle SimpleCache.store_pickle
    rw [get_of_kvGet_some c k (b64encode (pdumps v)) _ hk
      (kvGet_store_self c k (b64encode (pdumps v)) none db)]
    simp [hb, hp]

/-- C2 counterexample: storing under the empty-string key and immediately
reading it back returns Python `None` — not a value equal to the stored
one — because `get` short-circuits on falsy keys. -/
theorem store_get_roundtrip_cex :
    (cacheA.get "" (cacheA.store "" "v" none DB.empty)).1 =
      GetResult.noneValue ∧
    GetResult.noneValue ≠ GetResult.value "v" := by
  exact ⟨by decide, by decide⟩

/-- A sample invertible value codec for the witness (standing in for
`json.dumps`/`json.loads` and `pickle.dumps`/`pickle.loads` on `Bool`). -/
def boolDumps : Bool → String := fun b => if b then "true" else "false"

/-- Decoder inverse to `boolDumps`. -/
def boolLoads : String → Option Bool := fun s =>
  if s = "true" then some true else if s = "false" then some false else none

/-- A sample binary-to-text codec pair for the witness (standing in for
`base64.b64encode`/`b64decode`). -/
def textEncode : String → String := fun s => s

/-- Decoder inverse to `textEncode`. -/
def textDecode : String → Option String := fun s => some s

/-- C2 witness: the three round-trips at concrete inputs. -/
theorem store_get_roundtrip_witness :
    (cacheA.get "k" (cacheA.store "k" "7" none DB.empty)).1 =
      GetResult.value "7" ∧
    (cacheA.get_json boolLoads "k"
      (cacheA.store_json boolDumps "k" true DB.empty)).1 =
      DecodedResult.value true ∧
    (cacheA.get_pickle boolLoads textDecode "k"
      (cacheA.store_pickle boolDumps textEncode "k" false DB.empty)).1 =
      DecodedResult.value false :=
  ⟨(store_get_roundtrip cacheA "k" DB.empty rfl (by decide) (by decide)).1
      "7" none,
   (store_get_roundtrip cacheA "k" DB.empty rfl (by decide) (by decide)).2.1
      Bool boolDumps boolLoads true (by decide),
   (store_get_roundtrip cacheA "k" DB.empty rfl (by decide) (by decide)).2.2
      Bool boolDumps boolLoads textEncode textDecode false (by decide)
      (by decide)⟩

/-! ### C4 — degraded mode -/

/-- C4: construction against an unreachable backing store is total (the
connection failure is captured, `connection` ends up absent) and every call
through either memoization wrapper over the degraded cache returns the
wrapped function's directly computed result with the store left
untouched. -/
theorem degraded_mode_bypass {α ρ : Type} (limit expire : Nat)
    (hashkeys : Bool) (ns fname : String)
    (pdumps : ρ → String) (ploads : String → Option ρ)
    (b64encode : String → String) (b64decode : String → Option String)
    (md5hex : String → String) (adumps : α → String)
    (jdumps : ρ → String) (jloads : String → Option ρ)
    (jadumps : α → String) (f : α → ρ) (args : α) (db : DB) :
    (SimpleCache.init limit expire hashkeys ns false).connection = false ∧
    cache_it_call (SimpleCache.init limit expire hashkeys ns false) fname
      pdumps ploads b64encode b64decode md5hex adumps f args db =
      (f args, db, 1) ∧
    cache_it_json_call (SimpleCache.init limit expire hashkeys ns false)
      fname jdumps jloads md5hex jadumps f args db = (f args, db, 1) := by
  refine ⟨rfl, ?_, ?_⟩
  · rw [cache_it_call]
    simp [SimpleCache.init]
  · rw [cache_it_json_call]
    simp [SimpleCache.init]

/-! ### C6 — namespace isolation -/

/-- C6 counterexample: with namespaces `"app"` and `"app:b"` sharing the
store, the key `"b:k"` stored via the `"app"` cache becomes visible as key
`"k"` of the `"app:b"` cache — both encode to the entry key `"app:b:k"` —
so the claim's "for all namespace identifiers, including those containing
the ':' separator" fails. -/
theorem namespace_isolation_cex :
    cacheA.unique ≠ cacheC.unique ∧
    (cacheC.get "k" (cacheA.store "b:k" "v" none DB.empty)).1 =
      GetResult.value "v" := by
  exact ⟨by decide, by decide⟩

/-- C6 amended: for namespaces that do not contain the `':'` separator,
two caches with distinct namespaces sharing a backing store never observe
each other: a `store` through one changes neither the `get` outcome nor
the membership test of any key of the other (keys themselves may contain
`':'`). -/
theorem namespace_isolation (c₁ c₂ : SimpleCache)
    (h₁ : ':' ∉ c₁.unique.data) (h₂ : ':' ∉ c₂.unique.data)
    (hne : c₁.unique ≠ c₂.unique) (k v : String) (expire? : Option Nat)
    (db : DB) (q : String) :
    (c₂.get q (c₁.store k v expire? db)).1 = (c₂.get q db).1 ∧
    c₂.contains q (c₁.store k v expire? db) = c₂.contains q db := by
  have hkv := kvGet_store_cross c₁ c₂ h₁ h₂ hne k v expire? db q
  have hmem := members_store_cross c₁ c₂ h₁ h₂ hne k v expire? db
  have hcont : c₂.contains q (c₁.store k v expire? db) =
      c₂.contains q db := by
    unfold SimpleCache.contains sismember
    rw [hmem]
  refine ⟨?_, hcont⟩
  by_cases hq : q = ""
  · subst hq
    rw [get_of_empty_key, get_of_empty_key]
  · cases hv : kvGet db (c₂.make_key q) with
    | some w =>
      rw [get_of_kvGet_some c₂ q w db hq hv,
        get_of_kvGet_some c₂ q w _ hq (hkv.trans hv)]
    | none =>
      cases hs : sismember db c₂.get_set_name q with
      | false =>
        rw [get_of_miss c₂ q db hq hv hs,
          get_of_miss c₂ q _ hq (hkv.trans hv)
            (by unfold sismember; rw [hmem]; exact hs)]
      | true =>
        rw [(get_of_expired c₂ q db hq hv hs :
              c₂.get q db = (.expiredKey, _))]
        rw [get_of_expired c₂ q _ hq (hkv.trans hv)
          (by unfold sismember; rw [hmem]; exact hs)]

/-- C6 witness: with `':'`-free namespaces `"app"` and `"web"`, a store
through one leaves the other's view unchanged. -/
theorem namespace_isolation_witness :
    cacheA.unique ≠ cacheB.unique ∧
    (cacheB.get "k" (cacheA.store "k" "v" none DB.empty)).1 =
      (cacheB.get "k" DB.empty).1 ∧
    cacheB.contains "k" (cacheA.store "k" "v" none DB.empty) =
      cacheB.contains "k" DB.empty :=
  ⟨by decide,
   (namespace_isolation cacheA cacheB (by decide) (by decide) (by decide)
      "k" "v" none DB.empty "k").1,
   (namespace_isolation cacheA cacheB (by decide) (by decide) (by decide)
      "k" "v" none DB.empty "k").2⟩

/-! ### C7 — wrapper error handling -/

/-- C7 counterexample: with a live connection, a backing-store error raised
by the post-computation store step propagates out of `cache_it`'s wrapper,
and one raised by the membership pre-check propagates out of
`cache_it_json`'s wrapper — both reach the caller of the wrapped
function. -/
theorem wrapper_error_propagation_cex :
    cache_it_call_exc true ReadAttempt.cacheMiss (some "ConnectionError")
      (fun n : Nat => n + 1) 3 = Except.error "ConnectionError" ∧
    cache_it_json_call_exc true (Except.error "ConnectionError")
      ReadAttempt.cacheMiss none (fun n : Nat => n + 1) 3 =
      Except.error "ConnectionError" :=
  ⟨rfl, rfl⟩

/-- C7 amended: a backing-store error raised during the cache *read* is
caught (logged by the bare `except:`) and treated as a miss — the wrapper
still returns the wrapped function's computed result — but errors from the
json variant's membership pre-check and from the post-computation store
step are outside every `try` block and propagate to the caller. -/
theorem wrapper_error_handling {α ρ : Type} (f : α → ρ) (args : α)
    (e : String) :
    cache_it_call_exc true (ReadAttempt.storeError e) none f args =
      .ok (f args, 1) ∧
    cache_it_json_call_exc true (.ok true) (ReadAttempt.storeError e) none
      f args = .ok (f args, 1) ∧
    cache_it_call_exc true ReadAttempt.cacheMiss (some e) f args =
      .error e ∧
    cache_it_json_call_exc true (.error e) ReadAttempt.cacheMiss none
      f args = .error e ∧
    cache_it_json_call_exc true (.ok false) ReadAttempt.cacheMiss (some e)
      f args = .error e :=
  ⟨rfl, rfl, rfl, rfl, rfl⟩

/-! ### Lemmas for the memoization wrappers -/

/-- The derived cache key `"<function-name>:<key>"` is never the falsy
empty string, so the wrapper's reads go through `get`'s main path. -/
theorem cache_key_ne_empty (fname s : String) : fname ++ ":" ++ s ≠ "" := by
  intro h
  have h2 := congrArg String.data h
  simp [String.data_append] at h2

/-- Distinct derived keys give distinct cache keys. -/
theorem cache_key_inj (fname : String) {s t : String}
    (h : fname ++ ":" ++ s = fname ++ ":" ++ t) : s = t :=
  string_append_cancel_left h

theorem sismember_sadd_self (db : DB) (s m : String) :
    sismember (sadd db s m) s m = true := by
  unfold sadd
  split
  · next h => exact List.elem_iff.mpr h
  · unfold sismember
    rw [members_setSet_self]
    simp [List.contains_cons]

/-- After `store(key, ...)` the raw key is listed in the Key Set. -/
theorem sismember_store_self (c : SimpleCache) (key value : String)
    (expire? : Option Nat) (db : DB) :
    sismember (c.store key value expire? db) c.get_set_name key = true := by
  unfold SimpleCache.store
  simp only [to_unicode]
  exact sismember_sadd_self _ _ _

theorem contains_false_tail {m a : String} {rest : List String}
    (h : (a :: rest).contains m = false) : rest.contains m = false := by
  rw [List.contains_cons] at h
  exact (Bool.or_eq_false_iff.mp h).2

/-- The eviction loop never adds Key Set members. -/
theorem sismember_evictLoop_false (c : SimpleCache) (fuel : Nat) (db : DB)
    (m : String) (h : sismember db c.get_set_name m = false) :
    sismember (evictLoop c fuel db) c.get_set_name m = false := by
  induction fuel generalizing db with
  | zero => simpa [evictLoop] using h
  | succ n ih =>
    rw [evictLoop]
    by_cases hle : c.limit ≤ scard db c.get_set_name
    · rw [if_pos hle]
      apply ih
      unfold sismember
      rw [members_delKey_ne _ _ _ (Ne.symm (make_key_ne_get_set_name c _))]
      unfold spop
      cases hm : members db c.get_set_name with
      | nil =>
        simp only
        unfold sismember at h
        exact h
      | cons x rest =>
        simp only [members_setSet_self]
        unfold sismember at h
        rw [hm] at h
        exact contains_false_tail h
    · rw [if_neg hle]
      exact h

/-- A `store(key, ...)` adds only `key` to the Key Set: any other key that
was not a member stays a non-member. -/
theorem sismember_store_false (c : SimpleCache) (key value : String)
    (expire? : Option Nat) (db : DB) (q : String) (hq : q ≠ key)
    (h : sismember db c.get_set_name q = false) :
    sismember (c.store key value expire? db) c.get_set_name q = false := by
  unfold SimpleCache.store
  simp only [to_unicode]
  have hev := sismember_evictLoop_false c (scard db c.get_set_name + 1) db q h
  unfold sadd
  split
  · next hmem =>
    unfold sismember at hev ⊢
    rw [members_kvSet]
    exact hev
  · unfold sismember
    rw [members_setSet_self, List.contains_cons, members_kvSet]
    unfold sismember at hev
    exact Bool.or_eq_false_iff.mpr ⟨beq_eq_false_iff_ne.mpr hq, hev⟩

/-! ### C5 — memoization -/

/-- C5: for a pure function wrapped by either decorator over a live cache
(codec pairs inverse on the computed result, fresh state for both argument
tuples, distinct derived keys, no expiry or eviction in between): the first
call computes `f` (invocation count 1) and stores the result; a second call
with the identical argument tuple returns a result equal to the first
without re-invoking `f` (count 0); a call with a different argument tuple
invokes `f` again (count 1). -/
theorem memoization_wrappers {α ρ : Type} (c : SimpleCache) (fname : String)
    (pdumps : ρ → String) (ploads : String → Option ρ)
    (b64encode : String → String) (b64decode : String → Option String)
    (md5hex : String → String) (adumps : α → String)
    (jdumps : ρ → String) (jloads : String → Option ρ)
    (jadumps : α → String) (f : α → ρ) (a a' : α) (db : DB)
    (hconn : c.connection = true) (hl : 1 ≤ c.limit)
    (hp : ploads (pdumps (f a)) = some (f a))
    (hb : b64decode (b64encode (pdumps (f a))) = some (pdumps (f a)))
    (hj : jloads (jdumps (f a)) = some (f a))
    (hk1 : kvGet db (c.make_key
      (fname ++ ":" ++ derive_key c.hashkeys md5hex adumps a)) = none)
    (hs1 : sismember db c.get_set_name
      (fname ++ ":" ++ derive_key c.hashkeys md5hex adumps a) = false)
    (hk2 : kvGet db (c.make_key
      (fname ++ ":" ++ derive_key c.hashkeys md5hex adumps a')) = none)
    (hne : derive_key c.hashkeys md5hex adumps a ≠
      derive_key c.hashkeys md5hex adumps a')
    (hjs1 : sismember db c.get_set_name
      (fname ++ ":" ++ derive_key c.hashkeys md5hex jadumps a) = false)
    (hjs2 : sismember db c.get_set_name
      (fname ++ ":" ++ derive_key c.hashkeys md5hex jadumps a') = false)
    (hjne : derive_key c.hashkeys md5hex jadumps a ≠
      derive_key c.hashkeys md5hex jadumps a') :
    ((cache_it_call c fname pdumps ploads b64encode b64decode md5hex adumps
        f a db).1 = f a ∧
      (cache_it_call c fname pdumps ploads b64encode b64decode md5hex adumps
        f a db).2.2 = 1 ∧
      (cache_it_call c fname pdumps ploads b64encode b64decode md5hex adumps
        f a (cache_it_call c fname pdumps ploads b64encode b64decode md5hex
          adumps f a db).2.1).1 = f a ∧
      (cache_it_call c fname pdumps ploads b64encode b64decode md5hex adumps
        f a (cache_it_call c fname pdumps ploads b64encode b64decode md5hex
          adumps f a db).2.1).2.2 = 0 ∧
      (cache_it_call c fname pdumps ploads b64encode b64decode md5hex adumps
        f a' (cache_it_call c fname pdumps ploads b64encode b64decode md5hex
          adumps f a db).2.1).2.2 = 1) ∧
    ((cache_it_json_call c fname jdumps jloads md5hex jadumps f a db).1 =
        f a ∧
      (cache_it_json_call c fname jdumps jloads md5hex jadumps
        f a db).2.2 = 1 ∧
      (cache_it_json_call c fname jdumps jloads md5hex jadumps f a
        (cache_it_json_call c fname jdumps jloads md5hex jadumps
          f a db).2.1).1 = f a ∧
      (cache_it_json_call c fname jdumps jloads md5hex jadumps f a
        (cache_it_json_call c fname jdumps jloads md5hex jadumps
          f a db).2.1).2.2 = 0 ∧
      (cache_it_json_call c fname jdumps jloads md5hex jadumps f a'
        (cache_it_json_call c fname jdumps jloads md5hex jadumps
          f a db).2.1).2.2 = 1) := by
  have _ := hl
  -- `cache_it`: first call misses and stores
  have hget1 : c.get (fname ++ ":" ++ derive_key c.hashkeys md5hex adumps a)
      db = (.cacheMiss, db) :=
    get_of_miss c _ db (cache_key_ne_empty _ _) hk1 hs1
  have hgp1 : c.get_pickle ploads b64decode
      (fname ++ ":" ++ derive_key c.hashkeys md5hex adumps a) db =
      (.cacheMiss, db) := by
    unfold SimpleCache.get_pickle
    rw [hget1]
  have hr1 : cache_it_call c fname pdumps ploads b64encode b64decode md5hex
      adumps f a db =
      (f a, c.store_pickle pdumps b64encode
        (fname ++ ":" ++ derive_key c.hashkeys md5hex adumps a) (f a) db,
       1) := by
    unfold cache_it_call
    simp [hconn, hgp1]
  -- `cache_it`: second identical call hits
  have hkv1 : kvGet (c.store_pickle pdumps b64encode
      (fname ++ ":" ++ derive_key c.hashkeys md5hex adumps a) (f a) db)
      (c.make_key (fname ++ ":" ++ derive_key c.hashkeys md5hex adumps a)) =
      some (b64encode (pdumps (f a))) := by
    unfold SimpleCache.store_pickle
    exact kvGet_store_self c _ _ none db
  have hget2 := get_of_kvGet_some c _ _ _ (cache_key_ne_empty fname
    (derive_key c.hashkeys md5hex adumps a)) hkv1
  have hgp2 : c.get_pickle ploads b64decode
      (fname ++ ":" ++ derive_key c.hashkeys md5hex adumps a)
      (c.store_pickle pdumps b64encode
        (fname ++ ":" ++ derive_key c.hashkeys md5hex adumps a) (f a) db) =
      (.value (f a), c.store_pickle pdumps b64encode
        (fname ++ ":" ++ derive_key c.hashkeys md5hex adumps a) (f a) db) := by
    unfold SimpleCache.get_pickle
    rw [hget2]
    simp [hb, hp]
  have hr2 : cache_it_call c fname pdumps ploads b64encode b64decode md5hex
      adumps f a (c.store_pickle pdumps b64encode
        (fname ++ ":" ++ derive_key c.hashkeys md5hex adumps a) (f a) db) =
      (f a, c.store_pickle pdumps b64encode
        (fname ++ ":" ++ derive_key c.hashkeys md5hex adumps a) (f a) db,
       0) := by
    unfold cache_it_call
    simp [hconn, hgp2]
  -- `cache_it`: a different argument tuple misses again
  have hmkne : c.make_key
      (fname ++ ":" ++ derive_key c.hashkeys md5hex adumps a') ≠
      c.make_key (fname ++ ":" ++ derive_key c.hashkeys md5hex adumps a) :=
    fun h => hne (cache_key_inj fname (make_key_inj c h)).symm
  have hkv2 : kvGet (c.store_pickle pdumps b64encode
      (fname ++ ":" ++ derive_key c.hashkeys md5hex adumps a) (f a) db)
      (c.make_key (fname ++ ":" ++ derive_key c.hashkeys md5hex adumps a')) =
      none := by
    unfold SimpleCache.store_pickle
    exact kvGet_store_none c _ _ none db _ hmkne hk2
  have hr3 : (cache_it_call c fname pdumps ploads b64encode b64decode md5hex
      adumps f a' (c.store_pickle pdumps b64encode
        (fname ++ ":" ++ derive_key c.hashkeys md5hex adumps a)
        (f a) db)).2.2 = 1 := by
    cases hs : sismember (c.store_pickle pdumps b64encode
        (fname ++ ":" ++ derive_key c.hashkeys md5hex adumps a) (f a) db)
        c.get_set_name
        (fname ++ ":" ++ derive_key c.hashkeys md5hex adumps a') with
    | false =>
      have hget3 := get_of_miss c _ _ (cache_key_ne_empty fname
        (derive_key c.hashkeys md5hex adumps a')) hkv2 hs
      have hgp3 : c.get_pickle ploads b64decode
          (fname ++ ":" ++ derive_key c.hashkeys md5hex adumps a')
          (c.store_pickle pdumps b64encode
            (fname ++ ":" ++ derive_key c.hashkeys md5hex adumps a)
            (f a) db) = (.cacheMiss,
            c.store_pickle pdumps b64encode
              (fname ++ ":" ++ derive_key c.hashkeys md5hex adumps a)
              (f a) db) := by
        unfold SimpleCache.get_pickle
        rw [hget3]
      unfold cache_it_call
      simp [hconn, hgp3]
    | true =>
      have hget3 := get_of_expired c _ _ (cache_key_ne_empty fname
        (derive_key c.hashkeys md5hex adumps a')) hkv2 hs
      have hgp3 : c.get_pickle ploads b64decode
          (fname ++ ":" ++ derive_key c.hashkeys md5hex adumps a')
          (c.store_pickle pdumps b64encode
            (fname ++ ":" ++ derive_key c.hashkeys md5hex adumps a)
            (f a) db) = (.expiredKey,
            srem (c.store_pickle pdumps b64encode
              (fname ++ ":" ++ derive_key c.hashkeys md5hex adumps a)
              (f a) db) c.get_set_name
              (fname ++ ":" ++ derive_key c.hashkeys md5hex adumps a')) := by
        unfold SimpleCache.get_pickle
        rw [hget3]
      unfold cache_it_call
      simp [hconn, hgp3]
  -- `cache_it_json`: first call fails the membership pre-check and stores
  have hjr1 : cache_it_json_call c fname jdumps jloads md5hex jadumps f a
      db = (f a, c.store_json jdumps
        (fname ++ ":" ++ derive_key c.hashkeys md5hex jadumps a) (f a) db,
       1) := by
    unfold cache_it_json_call
    simp [hconn, SimpleCache.contains, hjs1]
  -- `cache_it_json`: second identical call passes the pre-check and hits
  have hjc2 : c.contains
      (fname ++ ":" ++ derive_key c.hashkeys md5hex jadumps a)
      (c.store_json jdumps
        (fname ++ ":" ++ derive_key c.hashkeys md5hex jadumps a) (f a) db) =
      true := by
    unfold SimpleCache.contains SimpleCache.store_json
    exact sismember_store_self c _ _ none db
  have hjkv1 : kvGet (c.store_json jdumps
      (fname ++ ":" ++ derive_key c.hashkeys md5hex jadumps a) (f a) db)
      (c.make_key (fname ++ ":" ++ derive_key c.hashkeys md5hex jadumps a)) =
      some (jdumps (f a)) := by
    unfold SimpleCache.store_json
    exact kvGet_store_self c _ _ none db
  have hjget2 := get_of_kvGet_some c _ _ _ (cache_key_ne_empty fname
    (derive_key c.hashkeys md5hex jadumps a)) hjkv1
  have hjg2 : c.get_json jloads
      (fname ++ ":" ++ derive_key c.hashkeys md5hex jadumps a)
      (c.store_json jdumps
        (fname ++ ":" ++ derive_key c.hashkeys md5hex jadumps a) (f a) db) =
      (.value (f a), c.store_json jdumps
        (fname ++ ":" ++ derive_key c.hashkeys md5hex jadumps a) (f a) db) := by
    unfold SimpleCache.get_json
    rw [hjget2]
    simp [hj]
  have hjr2 : cache_it_json_call c fname jdumps jloads md5hex jadumps f a
      (c.store_json jdumps
        (fname ++ ":" ++ derive_key c.hashkeys md5hex jadumps a) (f a) db) =
      (f a, c.store_json jdumps
        (fname ++ ":" ++ derive_key c.hashkeys md5hex jadumps a) (f a) db,
       0) := by
    unfold cache_it_json_call
    simp [hconn, hjc2, hjg2]
  -- `cache_it_json`: a different argument tuple fails the pre-check
  have hjckne : (fname ++ ":" ++ derive_key c.hashkeys md5hex jadumps a') ≠
      (fname ++ ":" ++ derive_key c.hashkeys md5hex jadumps a) :=
    fun h => hjne (cache_key_inj fname h).symm
  have hjc3 : c.contains
      (fname ++ ":" ++ derive_key c.hashkeys md5hex jadumps a')
      (c.store_json jdumps
        (fname ++ ":" ++ derive_key c.hashkeys md5hex jadumps a) (f a) db) =
      false := by
    unfold SimpleCache.contains SimpleCache.store_json
    exact sismember_store_false c _ _ none db _ hjckne hjs2
  have hjr3 : cache_it_json_call c fname jdumps jloads md5hex jadumps f a'
      (c.store_json jdumps
        (fname ++ ":" ++ derive_key c.hashkeys md5hex jadumps a) (f a) db) =
      (f a', c.store_json jdumps
        (fname ++ ":" ++ derive_key c.hashkeys md5hex jadumps a')
        (f a') (c.store_json jdumps
          (fname ++ ":" ++ derive_key c.hashkeys md5hex jadumps a)
          (f a) db), 1) := by
    unfold cache_it_json_call
    simp [hconn, hjc3]
  refine ⟨⟨?_, ?_, ?_, ?_, ?_⟩, ?_, ?_, ?_, ?_, ?_⟩ <;>
    simp [hr1, hr2, hr3, hjr1, hjr2, hjr3]

/-- C5 witness: `cache_it` and `cache_it_json` at a concrete Boolean
function over the empty store — first call invokes (count 1), the repeat
call hits (count 0 and the equal result), the changed argument invokes
again (count 1). -/
theorem memoization_wrappers_witness :
    (cache_it_call cacheA "f" boolDumps boolLoads textEncode textDecode
      textEncode boolDumps (fun b : Bool => b) true DB.empty).2.2 = 1 ∧
    (cache_it_call cacheA "f" boolDumps boolLoads textEncode textDecode
      textEncode boolDumps (fun b : Bool => b) true
      (cache_it_call cacheA "f" boolDumps boolLoads textEncode textDecode
        textEncode boolDumps (fun b : Bool => b) true DB.empty).2.1).2.2 =
      0 ∧
    (cache_it_call cacheA "f" boolDumps boolLoads textEncode textDecode
      textEncode boolDumps (fun b : Bool => b) false
      (cache_it_call cacheA "f" boolDumps boolLoads textEncode textDecode
        textEncode boolDumps (fun b : Bool => b) true DB.empty).2.1).2.2 =
      1 ∧
    (cache_it_json_call cacheA "f" boolDumps boolLoads textEncode boolDumps
      (fun b : Bool => b) true
      (cache_it_json_call cacheA "f" boolDumps boolLoads textEncode
        boolDumps (fun b : Bool => b) true DB.empty).2.1).2.2 = 0 :=
  have h := memoization_wrappers cacheA "f" boolDumps boolLoads textEncode
    textDecode textEncode boolDumps boolDumps boolLoads boolDumps
    (fun b : Bool => b) true false DB.empty rfl (by decide) (by decide)
    (by decide) (by decide) rfl rfl rfl (by decide) rfl rfl (by decide)
  ⟨h.1.2.1, h.1.2.2.2.1, h.1.2.2.2.2, h.2.2.2.2.1⟩

end RedisSimpleCache
